import Mathlib

/-!
# Verification of pg_binmapper's layout engine

A shallow embedding of `src/pg_binmapper.c`: a PostgreSQL extension that
derives a fixed-width binary layout from a table's attribute metadata,
caches it per table OID, and decodes big-endian binary payloads against
that layout.

Modelling conventions:
* Machine bytes are `Nat` values (well-formed payloads carry bytes `< 256`).
* The host is little-endian (the target of the C code, which uses the
  unconditional byte-swap primitives `pg_bswap16/32/64`): a `memcpy` of
  `k` bytes into a zero-initialised `uint64` yields the little-endian
  value `leToNat bytes`, and `pg_bswapN` is modelled by `bswapW`.
* `float4` Datums are represented by their IEEE-754 bit pattern (a `Nat`
  below `2 ^ 32`), because the decoder's contract is a bit-for-bit
  reinterpretation, never a numeric conversion.
* The process-wide dynahash table is a function `Nat → Option TableBinaryLayout`.
  `hash_search(HASH_ENTER)` on a missing key inserts an element whose body
  is uninitialised memory; that indeterminate body is the explicit
  `garbage` parameter.
* `ereport(ERROR)` is modelled as an `Except.error` result paired with the
  cache state as it stands when the error is raised (the hash entry and the
  fields written before the error persist, exactly as in C).
-/

namespace PgBinmapper

/-- `pg_type` OID of `float4` (`FLOAT4OID` in `catalog/pg_type.h`). -/
def FLOAT4OID : Nat := 700

/-- `pg_type` OID of `uuid` (`UUIDOID` in `catalog/pg_type.h`). -/
def UUIDOID : Nat := 2950

/-- `pg_type` OID of the anonymous `record` type (`RECORDOID`). -/
def RECORDOID : Nat := 2249

/-- The fields of `Form_pg_attribute` that `pg_binmapper.c` reads:
`attname`, `atttypid`, `attlen` (negative means variable width),
`attbyval`, `attisdropped`, `attnum`. -/
structure Attr where
  attname : String
  atttypid : Nat
  attlen : Int
  attbyval : Bool
  attisdropped : Bool
  attnum : Int
deriving DecidableEq, Repr

/-- The slice of a `TupleDesc` that the module uses: the attribute array
plus the composite-type identity fields that `BlessTupleDesc` inspects.
A relation's relcache descriptor carries `tdtypeid` equal to the table's
named rowtype OID (`pg_class.reltype`, never `RECORDOID`) and
`tdtypmod = -1`; `CreateTupleDescCopy` flat-copies the attribute array
and preserves this tuple type identification. -/
structure PgTupleDesc where
  attrs : List Attr
  tdtypeid : Nat
  tdtypmod : Int
deriving DecidableEq, Repr

/-- The cache entry struct `TableBinaryLayout` of `pg_binmapper.c`. -/
structure TableBinaryLayout where
  relid : Nat
  tupdesc : PgTupleDesc
  offsets : List Int
  total_binary_size : Nat
  is_valid : Bool
deriving DecidableEq, Repr

/-- One decoded column value (`values[i]` / `nulls[i]` in the C loop):
a null marker, a `float4` Datum carried as its 32-bit IEEE-754 bit
pattern, an integer Datum carried as the host `uint64` value, or an
opaque byte block (the `pg_uuid_t` path). -/
inductive DecodedField where
  | nullField : DecodedField
  | float4 : Nat → DecodedField
  | scalar : Nat → DecodedField
  | block : List Nat → DecodedField
deriving DecidableEq, Repr

/-- The three `ereport(ERROR)` sites of the module: unsupported column
type during layout build, failed `table_open` during rebuild, and the
payload-size check of the decoder. -/
inductive PgError where
  | unsupportedType : String → PgError
  | tableNotFound : PgError
  | sizeMismatch : Nat → Nat → PgError
deriving DecidableEq, Repr

/-! ## Byte-order primitives -/

/-- Little-endian value of a byte list: index `k` has weight `256 ^ k`.
This is what `memcpy` into a zero-initialised `uint64` produces on the
little-endian host. -/
def leToNat : List Nat → Nat
  | [] => 0
  | b :: bs => b + 256 * leToNat bs

/-- Big-endian value of a byte list (first byte most significant). -/
def beToNat (bs : List Nat) : Nat := leToNat bs.reverse

/-- The `w` low-order bytes of `n`, least significant first. -/
def toBytesLE : Nat → Nat → List Nat
  | 0, _ => []
  | w + 1, n => n % 256 :: toBytesLE w (n / 256)

/-- Unconditional byte swap of the `w`-byte value `n`: the model of
PostgreSQL's `pg_bswap16` (`w = 2`), `pg_bswap32` (`w = 4`) and
`pg_bswap64` (`w = 8`). -/
def bswapW (w n : Nat) : Nat := leToNat (toBytesLE w n).reverse

/-! ## Layout builder (the loop of `get_or_create_layout`, lines 63-81) -/

/-- The column walk of `get_or_create_layout`: starting from the running
total `acc`, returns the offsets written so far, the final
`total_binary_size`, and `some name` when the loop aborts with
`Unsupported type for column name` (in which case later offsets are
never written). Dropped or system columns (`attisdropped || attnum <= 0`)
get the absent marker `-1`; a positive `attlen` is the width; `uuid`
gets the hard-coded width 16; anything else is the error. -/
def buildOffsets : List Attr → Nat → List Int × Nat × Option String
  | [], acc => ([], acc, none)
  | a :: rest, acc =>
    if a.attisdropped = true ∨ a.attnum ≤ 0 then
      ((-1 : Int) :: (buildOffsets rest acc).1, (buildOffsets rest acc).2)
    else if 0 < a.attlen then
      ((acc : Int) :: (buildOffsets rest (acc + a.attlen.toNat)).1,
        (buildOffsets rest (acc + a.attlen.toNat)).2)
    else if a.atttypid = UUIDOID then
      ((acc : Int) :: (buildOffsets rest (acc + 16)).1,
        (buildOffsets rest (acc + 16)).2)
    else ([], acc, some a.attname)

/-- A column the builder skips: dropped, or not a live user column. -/
def isAbsent (a : Attr) : Prop := a.attisdropped = true ∨ a.attnum ≤ 0

instance (a : Attr) : Decidable (isAbsent a) := by
  unfold isAbsent; infer_instance

/-- The byte width the module assigns to a column: `attlen` when
positive, else the hard-coded 16 (the `uuid` / fallback width, the same
formula as `len = (attr->attlen > 0) ? attr->attlen : 16`). -/
def colWidth (a : Attr) : Nat := if 0 < a.attlen then a.attlen.toNat else 16

/-- Sum of the widths of the present (non-absent) columns. -/
def presentWidthSum : List Attr → Nat
  | [] => 0
  | a :: rest =>
    (if a.attisdropped = true ∨ a.attnum ≤ 0 then 0 else colWidth a) +
      presentWidthSum rest

/-! ## Decoder (the per-column loop of `parse_binary_payload`, lines 120-156) -/

/-- Decode one present column at byte offset `off` of `payload`,
following lines 130-155 of `parse_binary_payload`:
`len` is `attlen` when positive, else 16; a pass-by-value column is read
by `memcpy` of `min len 8` bytes into a zeroed `uint64` (little-endian
host) and byte-swapped for widths 8, 4, 2; a `float4` column keeps the
swapped 32-bit pattern as its bit pattern (the `union` bit-cast), any
other by-value column keeps the swapped integer as its Datum; a
non-by-value column is copied as 16 raw bytes into a `pg_uuid_t`. -/
def decodeField (a : Attr) (off : Nat) (payload : List Nat) : DecodedField :=
  let len : Nat := if 0 < a.attlen then a.attlen.toNat else 16
  if a.attbyval = true then
    let raw0 := leToNat ((payload.drop off).take (min len 8))
    let raw :=
      if len = 8 then bswapW 8 raw0
      else if len = 4 then bswapW 4 (raw0 % 2 ^ 32)
      else if len = 2 then bswapW 2 (raw0 % 2 ^ 16)
      else raw0
    if a.atttypid = FLOAT4OID then DecodedField.float4 (raw % 2 ^ 32)
    else DecodedField.scalar raw
  else
    DecodedField.block ((payload.drop off).take 16)

/-- The per-column loop: an offset of `-1` yields a null field, any
other offset decodes the column at that offset. -/
def decodeFields : List Attr → List Int → List Nat → List DecodedField
  | a :: as_, off :: offs, payload =>
    (if off = -1 then DecodedField.nullField
     else decodeField a off.toNat payload) :: decodeFields as_ offs payload
  | _, _, _ => []

/-! ## Tuple-descriptor blessing (external collaborator) -/

/-- Model of PostgreSQL's `BlessTupleDesc` (`src/backend/utils/fmgr/funcapi.c`),
which `parse_binary_payload` calls on the cached layout's descriptor at
line 164: when the descriptor is an unblessed anonymous record
(`tdtypeid == RECORDOID && tdtypmod < 0`), `assign_record_type_typmod`
registers it and writes the registry-assigned nonnegative typmod into
the descriptor *in place*; otherwise the descriptor is untouched.
`assigned` stands for the typmod the registry hands out. Every
descriptor this cache holds is a `CreateTupleDescCopy` of a relation
descriptor, whose `tdtypeid` is the table's named rowtype OID — not
`RECORDOID` — so on cached layouts this call never fires. -/
def blessTupleDesc (assigned : Nat) (td : PgTupleDesc) : PgTupleDesc :=
  if td.tdtypeid = RECORDOID ∧ td.tdtypmod < 0 then
    { td with tdtypmod := (assigned : Int) }
  else td

/-- Lines 109-178 of `parse_binary_payload`, given the layout the cache
returned: the size check (`SIZE ERROR: expected %d, got %d` carries
`total_binary_size` then the input size), then the decode loop, then
`BlessTupleDesc(layout->tupdesc)` — which mutates the borrowed layout's
descriptor. The second component is the layout as the call leaves it. -/
def decode_against_layout (assigned : Nat) (layout : TableBinaryLayout)
    (payload : List Nat) :
    Except PgError (List DecodedField) × TableBinaryLayout :=
  if payload.length = layout.total_binary_size then
    (Except.ok (decodeFields layout.tupdesc.attrs layout.offsets payload),
     { layout with tupdesc := blessTupleDesc assigned layout.tupdesc })
  else
    (Except.error (PgError.sizeMismatch layout.total_binary_size payload.length),
     layout)

/-! ## Layout cache -/

/-- The process-wide dynahash table `layout_cache`, keyed by table OID. -/
def Cache := Nat → Option TableBinaryLayout

/-- The empty cache (`_PG_init` creates the hash with no entries). -/
def emptyCache : Cache := fun _ => none

/-- Point update of the cache (entry body overwritten in place). -/
def cacheSet (cache : Cache) (relid : Nat) (v : TableBinaryLayout) : Cache :=
  fun k => if k = relid then some v else cache k

/-- `invalidate_layout_cache`: `hash_search(..., HASH_REMOVE, ...)`
deletes the entry for `relid`. -/
def invalidate_layout_cache (cache : Cache) (relid : Nat) : Cache :=
  fun k => if k = relid then none else cache k

/-- The rebuild path of `get_or_create_layout` (lines 52-86), entered
when the entry was missing or invalid; the entry body `old` (garbage for
a fresh element) is already in the hash at `relid`. `catalog` is the
relcache, giving each existing relation its descriptor
(`RelationGetDescr`): `table_open` fails (`tableNotFound`) when it has
no relation for `relid`, leaving the entry as it stands. Otherwise the
fields are (re)written: the descriptor copy (`CreateTupleDescCopy`
flat-copies the attributes and preserves the relation descriptor's
tuple type identification — `tdtypeid` is the table's rowtype OID,
`tdtypmod` is `-1`), the zero-initialised offsets array, and the
running total, and the column walk runs. On `UnsupportedType` the error
is raised *after* the earlier offsets and the partial total were
written — the entry stays in the hash, its unwritten offsets still 0
and `is_valid` untouched (so equal to `old.is_valid`). On success the
entry is completed and only then marked valid. -/
def rebuild_layout (catalog : Nat → Option PgTupleDesc) (cache : Cache)
    (relid : Nat) (old : TableBinaryLayout) :
    Except PgError TableBinaryLayout × Cache :=
  match catalog relid with
  | none => (Except.error PgError.tableNotFound, cache)
  | some td =>
    let r := buildOffsets td.attrs 0
    match r.2.2 with
    | some colname =>
      let broken : TableBinaryLayout :=
        { relid := relid
          tupdesc := td
          offsets := r.1 ++ List.replicate (td.attrs.length - r.1.length) 0
          total_binary_size := r.2.1
          is_valid := old.is_valid }
      (Except.error (PgError.unsupportedType colname),
       cacheSet cache relid broken)
    | none =>
      let fresh : TableBinaryLayout :=
        { relid := relid
          tupdesc := td
          offsets := r.1
          total_binary_size := r.2.1
          is_valid := true }
      (Except.ok fresh, cacheSet cache relid fresh)

/-- `get_or_create_layout` (lines 41-87): `hash_search(HASH_ENTER)`
finds or inserts the entry for `relid`. A found, valid entry is returned
at once. A found, invalid entry is rebuilt in place. A missing key first
inserts an element whose body is the uninitialised memory `garbage`
(dynahash does not zero entry bodies), then rebuilds it. -/
def get_or_create_layout (catalog : Nat → Option PgTupleDesc)
    (garbage : TableBinaryLayout) (cache : Cache) (relid : Nat) :
    Except PgError TableBinaryLayout × Cache :=
  match cache relid with
  | some layout =>
    if layout.is_valid = true then (Except.ok layout, cache)
    else rebuild_layout catalog cache relid layout
  | none =>
    rebuild_layout catalog (cacheSet cache relid garbage) relid garbage

/-- The whole entry point `parse_binary_payload(table_oid, payload)`:
fetch (or build) the cached layout, then run the decoder against it.
Because the decoder borrows a pointer into the hash entry, the layout
state the decode call leaves behind (blessing included) is the cache's
state for `table_oid` afterwards. -/
def parse_binary_payload (catalog : Nat → Option PgTupleDesc)
    (garbage : TableBinaryLayout) (assigned : Nat) (cache : Cache)
    (table_oid : Nat) (payload : List Nat) :
    Except PgError (List DecodedField) × Cache :=
  match get_or_create_layout catalog garbage cache table_oid with
  | (Except.error e, cache2) => (Except.error e, cache2)
  | (Except.ok layout, cache2) =>
    let r := decode_against_layout assigned layout payload
    (r.1, cacheSet cache2 table_oid r.2)

/-! ## Concrete schemas used as test inputs -/

/-- A live `int4` column (`atttypid 23`, `attlen 4`, pass-by-value). -/
def int4Attr (nm : String) (num : Int) : Attr :=
  { attname := nm, atttypid := 23, attlen := 4, attbyval := true,
    attisdropped := false, attnum := num }

/-- The schema of the spec's concrete scenario:
`(id int32, ts int64, temp float32, uid block16)`. -/
def attrs4 : List Attr :=
  [ int4Attr "id" 1,
    { attname := "ts", atttypid := 20, attlen := 8, attbyval := true,
      attisdropped := false, attnum := 2 },
    { attname := "temp", atttypid := FLOAT4OID, attlen := 4, attbyval := true,
      attisdropped := false, attnum := 3 },
    { attname := "uid", atttypid := UUIDOID, attlen := 16, attbyval := false,
      attisdropped := false, attnum := 4 } ]

/-- The scenario's 32-byte big-endian payload:
`00 00 00 01 | 00 00 00 00 00 00 00 64 | 41 70 00 00 | <16 raw bytes>`. -/
def payload4 : List Nat :=
  [0, 0, 0, 1] ++ [0, 0, 0, 0, 0, 0, 0, 100] ++ [0x41, 0x70, 0, 0] ++
    (List.range 16).map (fun k => 0xa0 + k)

/-- A stand-in for the uninitialised dynahash entry body. -/
def g0 : TableBinaryLayout :=
  { relid := 0, tupdesc := { attrs := [], tdtypeid := 0, tdtypmod := 0 },
    offsets := [], total_binary_size := 0, is_valid := false }

/-- The scenario table's relation descriptor: its `tdtypeid` is the
table's named rowtype OID (`pg_class.reltype`), its `tdtypmod` is `-1`. -/
def td4 : PgTupleDesc :=
  { attrs := attrs4, tdtypeid := 44242, tdtypmod := -1 }

/-- A relcache holding only the scenario table, OID 4242. -/
def catalog4 : Nat → Option PgTupleDesc :=
  fun oid => if oid = 4242 then some td4 else none

/-- The dropped-column schema `(a int32, b [dropped], c int32)`. -/
def attrsABC : List Attr :=
  [ int4Attr "a" 1,
    { attname := "b", atttypid := 0, attlen := 4, attbyval := true,
      attisdropped := true, attnum := 2 },
    int4Attr "c" 3 ]

/-- The layout the builder derives for `attrsABC` (table rowtype OID
1099). -/
def layoutABC : TableBinaryLayout :=
  { relid := 99,
    tupdesc := { attrs := attrsABC, tdtypeid := 1099, tdtypmod := -1 },
    offsets := [0, -1, 4], total_binary_size := 8, is_valid := true }

/-- A live variable-width column of a non-`uuid` type
(`text`: `atttypid 25`, `attlen -1`): the `UnsupportedType` case. -/
def textAttr : Attr :=
  { attname := "v", atttypid := 25, attlen := -1, attbyval := false,
    attisdropped := false, attnum := 1 }

/-- Relation descriptor of table 77 (rowtype OID 1077), whose single
live column is the unsupported `textAttr`. -/
def td77 : PgTupleDesc :=
  { attrs := [textAttr], tdtypeid := 1077, tdtypmod := -1 }

/-- A relcache holding only table 77. -/
def catalog77 : Nat → Option PgTupleDesc :=
  fun oid => if oid = 77 then some td77 else none

/-- Uninitialised dynahash memory whose `is_valid` bit happens to be set
(dynahash's `HASH_ENTER` does not zero the element body, so the fresh
entry's `is_valid` is indeterminate). -/
def g1 : TableBinaryLayout := { g0 with is_valid := true }

/-- The half-built entry that a failed build of table 77 leaves in the
hash: descriptor written, offsets array still zeroed, running total 0,
`is_valid` never touched (here: the garbage bit `true`). -/
def broken77 : TableBinaryLayout :=
  { relid := 77, tupdesc := td77,
    offsets := [0], total_binary_size := 0, is_valid := true }

/-- A live fixed-width column that is neither pass-by-value nor `uuid`:
the `name` type (`atttypid 19`, `attlen 64`, pass-by-reference). -/
def nameAttr : Attr :=
  { attname := "n", atttypid := 19, attlen := 64, attbyval := false,
    attisdropped := false, attnum := 1 }

/-- A live one-byte pass-by-value column (`bool`: `atttypid 16`). -/
def boolAttr : Attr :=
  { attname := "flag", atttypid := 16, attlen := 1, attbyval := true,
    attisdropped := false, attnum := 1 }

/-- A live `float4` column on its own. -/
def floatAttr : Attr :=
  { attname := "temp", atttypid := FLOAT4OID, attlen := 4, attbyval := true,
    attisdropped := false, attnum := 1 }

/-- A live `int8` column, the post-schema-change column set of table 9. -/
def int8Attr : Attr :=
  { attname := "x", atttypid := 20, attlen := 8, attbyval := true,
    attisdropped := false, attnum := 1 }

/-- Relation descriptor of table 9 (rowtype OID 10009) after its schema
change: one `int8` column. -/
def td9 : PgTupleDesc :=
  { attrs := [int8Attr], tdtypeid := 10009, tdtypmod := -1 }

/-- A relcache holding only table 9. -/
def catalog9 : Nat → Option PgTupleDesc :=
  fun oid => if oid = 9 then some td9 else none

/-- A stale cached layout for table 9 (built from a one-`int4` schema
that no longer exists; the copied descriptor kept the table's rowtype
OID). -/
def stale9 : TableBinaryLayout :=
  { relid := 9,
    tupdesc := { attrs := [int4Attr "old" 1], tdtypeid := 10009,
                 tdtypmod := -1 },
    offsets := [0], total_binary_size := 4, is_valid := true }

/-! ## Byte-order lemmas -/

lemma leToNat_lt (bs : List Nat) (h : ∀ b ∈ bs, b < 256) :
    leToNat bs < 256 ^ bs.length := by
  induction bs with
  | nil => simp [leToNat]
  | cons b t ih =>
    have hb : b < 256 := h b (by simp)
    have ht : leToNat t < 256 ^ t.length := ih (fun x hx => h x (by simp [hx]))
    calc b + 256 * leToNat t < 256 * (leToNat t + 1) := by omega
      _ ≤ 256 * 256 ^ t.length := Nat.mul_le_mul_left 256 ht
      _ = 256 ^ (b :: t).length := by rw [List.length_cons, pow_succ, mul_comm]

lemma toBytesLE_leToNat (bs : List Nat) (h : ∀ b ∈ bs, b < 256) :
    toBytesLE bs.length (leToNat bs) = bs := by
  induction bs with
  | nil => simp [toBytesLE]
  | cons b t ih =>
    have hb : b < 256 := h b (by simp)
    have ht := ih (fun x hx => h x (by simp [hx]))
    simp only [List.length_cons, toBytesLE, leToNat]
    rw [Nat.add_mul_mod_self_left, Nat.mod_eq_of_lt hb,
      Nat.add_mul_div_left _ _ (by norm_num : 0 < 256),
      Nat.div_eq_of_lt hb, Nat.zero_add, ht]

/-- On a byte list, the unconditional word swap of its little-endian
value is its big-endian value: `memcpy` + `pg_bswapN` reads the slice
big-endian. -/
lemma bswapW_leToNat (bs : List Nat) (h : ∀ b ∈ bs, b < 256) :
    bswapW bs.length (leToNat bs) = beToNat bs := by
  unfold bswapW beToNat
  rw [toBytesLE_leToNat bs h]

lemma beToNat_lt (bs : List Nat) (h : ∀ b ∈ bs, b < 256) :
    beToNat bs < 256 ^ bs.length := by
  unfold beToNat
  have := leToNat_lt bs.reverse (fun b hb => h b (List.mem_reverse.mp hb))
  rwa [List.length_reverse] at this

/-! ## Decoder lemmas -/

/-- The field the decode loop emits at index `i`: a null for the absent
marker, otherwise the decoded column at its offset. -/
lemma decodeFields_idx :
    ∀ (attrs : List Attr) (offs : List Int) (p : List Nat) (i : Nat)
      (a : Attr) (off : Int), attrs[i]? = some a → offs[i]? = some off →
      (decodeFields attrs offs p)[i]? =
        some (if off = -1 then DecodedField.nullField
              else decodeField a off.toNat p) := by
  intro attrs
  induction attrs with
  | nil => intro offs p i a off h1 _; simp at h1
  | cons x xs ih =>
    intro offs p i a off h1 h2
    cases offs with
    | nil => simp at h2
    | cons o os =>
      cases i with
      | zero =>
        simp only [List.getElem?_cons_zero, Option.some.injEq] at h1 h2
        subst h1; subst h2
        simp [decodeFields]
      | succ n =>
        simp only [List.getElem?_cons_succ] at h1 h2
        simpa [decodeFields] using ih os p n a off h1 h2

/-- A pass-by-value column of width 4 decodes to the big-endian value of
its 4-byte slice — as a `float4` bit pattern when the declared type is
`float4`, as an integer Datum otherwise. -/
lemma decodeField_byval4 (a : Attr) (off : Nat) (p : List Nat)
    (hb : a.attbyval = true) (h4 : a.attlen = 4)
    (hlen : off + 4 ≤ p.length) (hby : ∀ b ∈ p, b < 256) :
    decodeField a off p =
      if a.atttypid = FLOAT4OID then
        DecodedField.float4 (beToNat ((p.drop off).take 4))
      else DecodedField.scalar (beToNat ((p.drop off).take 4)) := by
  have hslen : ((p.drop off).take 4).length = 4 := by
    rw [List.length_take, List.length_drop]
    omega
  have hsby : ∀ b ∈ (p.drop off).take 4, b < 256 := fun b hbm =>
    hby b (List.mem_of_mem_drop (List.mem_of_mem_take hbm))
  have hswap : bswapW 4 (leToNat ((p.drop off).take 4)) =
      beToNat ((p.drop off).take 4) := by
    have := bswapW_leToNat _ hsby
    rwa [hslen] at this
  have hlt : leToNat ((p.drop off).take 4) < 2 ^ 32 := by
    have := leToNat_lt _ hsby
    rw [hslen] at this
    norm_num at this ⊢
    exact this
  have hbe : beToNat ((p.drop off).take 4) < 2 ^ 32 := by
    have := beToNat_lt _ hsby
    rw [hslen] at this
    norm_num at this ⊢
    exact this
  unfold decodeField
  rw [h4, hb]
  have h44 : (4 : Int).toNat = 4 := rfl
  simp only [h44]
  norm_num
  rw [show (4294967296 : Nat) = 2 ^ 32 by norm_num,
    Nat.mod_eq_of_lt hlt, hswap, Nat.mod_eq_of_lt hbe]

/-- A pass-by-value column of width 1 decodes, with no byte swap, to the
single payload byte at its offset (zero-extended). -/
lemma decodeField_byval1 (a : Attr) (off : Nat) (p : List Nat) (byte : Nat)
    (hb : a.attbyval = true) (h1 : a.attlen = 1)
    (hbyte : p[off]? = some byte) (hlt : byte < 256) :
    decodeField a off p =
      if a.atttypid = FLOAT4OID then DecodedField.float4 byte
      else DecodedField.scalar byte := by
  have hslice : (p.drop off).take 1 = [byte] := by
    rw [List.take_succ, List.take_zero, List.nil_append, List.getElem?_drop,
      Nat.add_zero, hbyte]
    rfl
  unfold decodeField
  rw [h1, hb]
  norm_num
  rw [hslice]
  simp only [leToNat]
  rw [Nat.mul_zero, Nat.add_zero,
    Nat.mod_eq_of_lt (show byte < 4294967296 by omega)]

/-- A pass-by-reference column decodes to the 16 raw bytes at its
offset, whatever its declared width. -/
lemma decodeField_byref (a : Attr) (off : Nat) (p : List Nat)
    (hb : a.attbyval = false) :
    decodeField a off p = DecodedField.block ((p.drop off).take 16) := by
  unfold decodeField
  rw [hb]
  simp

/-! ## Layout-builder lemmas -/

lemma presentWidthSum_append (xs ys : List Attr) :
    presentWidthSum (xs ++ ys) = presentWidthSum xs + presentWidthSum ys := by
  induction xs with
  | nil => simp [presentWidthSum]
  | cons x t ih => simp [presentWidthSum, ih, Nat.add_assoc]

lemma presentWidthSum_take_succ (attrs : List Attr) (k : Nat) (a : Attr)
    (hk : attrs[k]? = some a) :
    presentWidthSum (attrs.take (k + 1)) =
      presentWidthSum (attrs.take k) +
        (if a.attisdropped = true ∨ a.attnum ≤ 0 then 0 else colWidth a) := by
  rw [List.take_succ, hk, presentWidthSum_append]
  simp [presentWidthSum]

/-- Skipping a block of absent columns does not change the running
prefix width. -/
lemma presentWidthSum_take_congr (attrs : List Attr) :
    ∀ (j i : Nat), i ≤ j → j ≤ attrs.length →
    (∀ k c, i ≤ k → k < j → attrs[k]? = some c → isAbsent c) →
    presentWidthSum (attrs.take j) = presentWidthSum (attrs.take i) := by
  intro j
  induction j with
  | zero =>
    intro i hij _ _
    rw [Nat.le_zero.mp hij]
  | succ n ihj =>
    intro i hij hjlen habs
    rcases Nat.lt_or_ge i (n + 1) with hlt | hge
    · have hi : i ≤ n := by omega
      have hn : n < attrs.length := by omega
      have hna : attrs[n]? = some attrs[n] := List.getElem?_eq_getElem hn
      have habsn : attrs[n].attisdropped = true ∨ attrs[n].attnum ≤ 0 :=
        habs n _ hi (by omega) hna
      rw [presentWidthSum_take_succ attrs n _ hna, if_pos habsn, Nat.add_zero]
      exact ihj i hi (by omega) (fun k c hk1 hk2 hkc => habs k c hk1 (by omega) hkc)
    · have : i = n + 1 := by omega
      rw [this]

/-- Master description of a successful column walk starting at running
total `acc`: the offsets array has one slot per attribute; the final
total adds the widths of all present columns; and slot `i` carries the
absent marker for an absent column, and otherwise `acc` plus the widths
of the present columns before `i`. -/
lemma buildOffsets_ok (attrs : List Attr) :
    ∀ (acc : Nat) (offs : List Int) (tot : Nat),
    buildOffsets attrs acc = (offs, tot, none) →
    offs.length = attrs.length ∧
    tot = acc + presentWidthSum attrs ∧
    ∀ i a, attrs[i]? = some a →
      offs[i]? = some (if a.attisdropped = true ∨ a.attnum ≤ 0 then (-1 : Int)
        else ((acc + presentWidthSum (attrs.take i) : Nat) : Int)) := by
  induction attrs with
  | nil =>
    intro acc offs tot h
    rw [buildOffsets] at h
    simp only [Prod.mk.injEq] at h
    obtain ⟨ho, ht, _⟩ := h
    subst ho; subst ht
    refine ⟨rfl, by simp [presentWidthSum], ?_⟩
    intro i a hx
    simp at hx
  | cons a rest ih =>
    intro acc offs tot h
    rw [buildOffsets] at h
    by_cases hab : a.attisdropped = true ∨ a.attnum ≤ 0
    · rw [if_pos hab] at h
      rcases hre : buildOffsets rest acc with ⟨ro, rt, re⟩
      rw [hre] at h
      simp only [Prod.mk.injEq] at h
      obtain ⟨ho, ht, he⟩ := h
      subst ho; subst ht; subst he
      obtain ⟨ihlen, ihtot, ihidx⟩ := ih acc ro rt hre
      refine ⟨by simp [ihlen], ?_, ?_⟩
      · rw [ihtot]
        simp only [presentWidthSum, if_pos hab, Nat.zero_add]
      · intro i x hx
        cases i with
        | zero =>
          simp only [List.getElem?_cons_zero, Option.some.injEq] at hx
          subst hx
          simp [if_pos hab]
        | succ n =>
          simp only [List.getElem?_cons_succ] at hx ⊢
          rw [List.take_succ_cons]
          simp only [presentWidthSum, if_pos hab, Nat.zero_add]
          exact ihidx n x hx
    · rw [if_neg hab] at h
      by_cases hlen : 0 < a.attlen
      · rw [if_pos hlen] at h
        rcases hre : buildOffsets rest (acc + a.attlen.toNat) with ⟨ro, rt, re⟩
        rw [hre] at h
        simp only [Prod.mk.injEq] at h
        obtain ⟨ho, ht, he⟩ := h
        subst ho; subst ht; subst he
        obtain ⟨ihlen, ihtot, ihidx⟩ := ih (acc + a.attlen.toNat) ro rt hre
        have hw : colWidth a = a.attlen.toNat := by rw [colWidth, if_pos hlen]
        refine ⟨by simp [ihlen], ?_, ?_⟩
        · rw [ihtot]
          simp only [presentWidthSum, if_neg hab, hw, Nat.add_assoc]
        · intro i x hx
          cases i with
          | zero =>
            simp only [List.getElem?_cons_zero, Option.some.injEq] at hx
            subst hx
            simp [if_neg hab, presentWidthSum]
          | succ n =>
            simp only [List.getElem?_cons_succ] at hx ⊢
            rw [List.take_succ_cons]
            simp only [presentWidthSum, if_neg hab, hw]
            have := ihidx n x hx
            rwa [Nat.add_assoc] at this
      · rw [if_neg hlen] at h
        by_cases huid : a.atttypid = UUIDOID
        · rw [if_pos huid] at h
          rcases hre : buildOffsets rest (acc + 16) with ⟨ro, rt, re⟩
          rw [hre] at h
          simp only [Prod.mk.injEq] at h
          obtain ⟨ho, ht, he⟩ := h
          subst ho; subst ht; subst he
          obtain ⟨ihlen, ihtot, ihidx⟩ := ih (acc + 16) ro rt hre
          have hw : colWidth a = 16 := by rw [colWidth, if_neg hlen]
          refine ⟨by simp [ihlen], ?_, ?_⟩
          · rw [ihtot]
            simp only [presentWidthSum, if_neg hab, hw, Nat.add_assoc]
          · intro i x hx
            cases i with
            | zero =>
              simp only [List.getElem?_cons_zero, Option.some.injEq] at hx
              subst hx
              simp [if_neg hab, presentWidthSum]
            | succ n =>
              simp only [List.getElem?_cons_succ] at hx ⊢
              rw [List.take_succ_cons]
              simp only [presentWidthSum, if_neg hab, hw]
              have := ihidx n x hx
              rwa [Nat.add_assoc] at this
        · rw [if_neg huid] at h
          simp only [Prod.mk.injEq] at h
          exact absurd h.2.2 (by simp)

/-! ## Claims -/

/-- C1: for every present column whose declared type is the 4-byte
IEEE-754 single-precision float (`float4`, pass-by-value, `attlen 4`),
decode takes the 4 payload bytes at the column's offset, byte-swaps
them from big-endian to host order as a 32-bit integer (on the
little-endian host this is `beToNat` of the slice) and reinterprets
that pattern bit-for-bit as a float: the decoded field's float bit
pattern equals the byte-swapped input bits. -/
theorem C1_float4_bitcast (attrs : List Attr) (offs : List Int)
    (payload : List Nat) (i : Nat) (a : Attr) (off : Int)
    (ha : attrs[i]? = some a) (ho : offs[i]? = some off) (hpos : 0 ≤ off)
    (hf : a.atttypid = FLOAT4OID) (hbv : a.attbyval = true)
    (hl : a.attlen = 4) (hfit : off.toNat + 4 ≤ payload.length)
    (hby : ∀ b ∈ payload, b < 256) :
    (decodeFields attrs offs payload)[i]? =
      some (DecodedField.float4 (beToNat ((payload.drop off.toNat).take 4))) := by
  rw [decodeFields_idx attrs offs payload i a off ha ho,
    if_neg (by omega : ¬ off = -1),
    decodeField_byval4 a off.toNat payload hbv hl hfit hby, if_pos hf]

/-- Witness for C1: a single `float4` column against the big-endian
bytes `41 70 00 00`, whose byte-swapped pattern is `0x41700000`
(IEEE-754 for `15.0f`). -/
theorem C1_float4_bitcast_witness :
    (decodeFields [floatAttr] [(0 : Int)] [0x41, 0x70, 0, 0])[0]? =
      some (DecodedField.float4
        (beToNat ((([0x41, 0x70, 0, 0] : List Nat).drop (0 : Int).toNat).take 4))) ∧
    beToNat ((([0x41, 0x70, 0, 0] : List Nat).drop (0 : Int).toNat).take 4) =
      0x41700000 :=
  ⟨C1_float4_bitcast [floatAttr] [0] [0x41, 0x70, 0, 0] 0 floatAttr 0 rfl rfl
    (by decide) rfl rfl rfl (by decide) (by decide), by decide⟩

/-- C2: decode fails with a size-mismatch error carrying the expected
size (the layout's `total_binary_size`) and the actual payload length
whenever the two differ — and then no field is decoded and the layout is
untouched — and proceeds past the check (decoding every column) exactly
when the payload length equals `total_binary_size`. -/
theorem C2_size_check (assigned : Nat) (layout : TableBinaryLayout)
    (payload : List Nat) :
    (payload.length ≠ layout.total_binary_size →
      decode_against_layout assigned layout payload =
        (Except.error
          (PgError.sizeMismatch layout.total_binary_size payload.length),
         layout)) ∧
    (payload.length = layout.total_binary_size →
      (decode_against_layout assigned layout payload).1 =
        Except.ok (decodeFields layout.tupdesc.attrs layout.offsets payload)) := by
  constructor
  · intro h
    rw [decode_against_layout, if_neg h]
  · intro h
    rw [decode_against_layout, if_pos h]

/-- Witness for C2: a 7-byte payload against the 8-byte layout of
`(a int32, b dropped, c int32)` fails with `SizeMismatch 8 7` and emits
nothing. -/
theorem C2_size_check_witness :
    decode_against_layout 1 layoutABC [0, 0, 0, 0, 0, 0, 0] =
      (Except.error (PgError.sizeMismatch 8 7), layoutABC) :=
  (C2_size_check 1 layoutABC [0, 0, 0, 0, 0, 0, 0]).1 (by decide)

/-- C3: on a successful layout build, absent columns get the marker
`-1`; the first present column's offset is 0; consecutive present
columns `i < j` satisfy `offset[j] = offset[i] + width[i]`; and the
total size is the sum of the widths of the present columns. -/
theorem C3_offset_packing (attrs : List Attr) (offs : List Int) (tot : Nat)
    (h : buildOffsets attrs 0 = (offs, tot, none)) :
    (∀ (i : Nat) (a : Attr), attrs[i]? = some a → isAbsent a →
      offs[i]? = some (-1)) ∧
    (∀ (i : Nat) (a : Attr), attrs[i]? = some a → ¬isAbsent a →
      (∀ (j : Nat) (b : Attr), j < i → attrs[j]? = some b → isAbsent b) →
      offs[i]? = some 0) ∧
    (∀ (i j : Nat) (a b : Attr) (oi oj : Int), i < j →
      attrs[i]? = some a → attrs[j]? = some b →
      ¬isAbsent a → ¬isAbsent b →
      (∀ (k : Nat) (c : Attr), i < k → k < j → attrs[k]? = some c →
        isAbsent c) →
      offs[i]? = some oi → offs[j]? = some oj →
      oj = oi + (colWidth a : Int)) ∧
    tot = presentWidthSum attrs := by
  obtain ⟨hlen, htot, hidx⟩ := buildOffsets_ok attrs 0 offs tot h
  refine ⟨?_, ?_, ?_, by simpa using htot⟩
  · intro i a ha hab
    have hab2 : a.attisdropped = true ∨ a.attnum ≤ 0 := hab
    rw [hidx i a ha, if_pos hab2]
  · intro i a ha hab hbefore
    have hab2 : ¬(a.attisdropped = true ∨ a.attnum ≤ 0) := hab
    have hi : i < attrs.length := (List.getElem?_eq_some.mp ha).1
    have hz : presentWidthSum (attrs.take i) = presentWidthSum (attrs.take 0) :=
      presentWidthSum_take_congr attrs i 0 (Nat.zero_le i) (le_of_lt hi)
        (fun k c _ hk2 hkc => hbefore k c hk2 hkc)
    rw [hidx i a ha, if_neg hab2, hz]
    simp [presentWidthSum]
  · intro i j a b oi oj hij ha hbj hnab hnbb hbetween hoi hoj
    have hj : j < attrs.length := (List.getElem?_eq_some.mp hbj).1
    have hnab2 : ¬(a.attisdropped = true ∨ a.attnum ≤ 0) := hnab
    have hnbb2 : ¬(b.attisdropped = true ∨ b.attnum ≤ 0) := hnbb
    have h1 := hidx i a ha
    rw [hoi, if_neg hnab2] at h1
    have h2 := hidx j b hbj
    rw [hoj, if_neg hnbb2] at h2
    simp only [Option.some.injEq] at h1 h2
    subst h1; subst h2
    have hstep : presentWidthSum (attrs.take (i + 1)) =
        presentWidthSum (attrs.take i) + colWidth a := by
      rw [presentWidthSum_take_succ attrs i a ha, if_neg hnab2]
    have hcong : presentWidthSum (attrs.take j) =
        presentWidthSum (attrs.take (i + 1)) :=
      presentWidthSum_take_congr attrs j (i + 1) hij (le_of_lt hj)
        (fun k c hk1 hk2 hkc => hbetween k c (by omega) hk2 hkc)
    rw [hcong, hstep]
    push_cast
    ring

/-- Witness for C3: the `(a int32, b dropped, c int32)` schema builds as
`([0, -1, 4], 8)` and the theorem yields `8 = presentWidthSum`. -/
theorem C3_offset_packing_witness :
    buildOffsets attrsABC 0 = ([0, -1, 4], 8, none) ∧
    (8 : Nat) = presentWidthSum attrsABC :=
  ⟨by decide, (C3_offset_packing attrsABC [0, -1, 4] 8 (by decide)).2.2.2⟩

/-- C4: the spec's concrete scenario. The table
`(id int32, ts int64, temp float32, uid block16)` (OID 4242) builds
offsets `[0, 4, 12, 16]` with total size 32, and the payload
`00 00 00 01 | 00..00 64 | 41 70 00 00 | <16 raw bytes>` decodes to
`id = 1`, `ts = 100`, `temp` with bit pattern `0x41700000` (IEEE-754
`15.0f`), and `uid` equal to those 16 bytes verbatim. -/
theorem C4_concrete_scenario :
    (get_or_create_layout catalog4 g0 emptyCache 4242).1 =
      Except.ok
        { relid := 4242
          tupdesc := td4
          offsets := [0, 4, 12, 16]
          total_binary_size := 32
          is_valid := true } ∧
    (parse_binary_payload catalog4 g0 1 emptyCache 4242 payload4).1 =
      Except.ok [DecodedField.scalar 1, DecodedField.scalar 100,
        DecodedField.float4 0x41700000,
        DecodedField.block ((List.range 16).map (fun k => 0xa0 + k))] :=
  ⟨rfl, rfl⟩

/-- C5 evaluation at the failing input (the claim is right, the code is
not): building the layout of table 77, whose live column `v` has a
variable-width non-`uuid` type, raises `UnsupportedType "v"` — but the
`HASH_ENTER`ed cache entry survives the error half-built (offsets still
zeroed, total 0, `is_valid` whatever garbage the allocator left, here
`true`), so the cache is *not* unchanged, and a later call can even be
handed the partial layout as if it were valid. -/
theorem C5_failed_build_leaves_entry :
    (get_or_create_layout catalog77 g1 emptyCache 77).1 =
      Except.error (PgError.unsupportedType "v") ∧
    (get_or_create_layout catalog77 g1 emptyCache 77).2 77 = some broken77 ∧
    (get_or_create_layout catalog77 g1
        ((get_or_create_layout catalog77 g1 emptyCache 77).2) 77).1 =
      Except.ok broken77 ∧
    broken77.total_binary_size ≠ presentWidthSum [textAttr] :=
  ⟨rfl, rfl, rfl, by decide⟩

/-- C6 counterexample: a present fixed-width pass-by-reference column of
declared width 64 (the `name` type) is not copied at its declared width —
the decoder emits the first 16 bytes (as a `pg_uuid_t`), not the 64
declared-width bytes the claim requires. -/
theorem C6_counterexample :
    decodeFields [nameAttr] [(0 : Int)] (List.range 64) =
      [DecodedField.block (List.range 16)] ∧
    decodeFields [nameAttr] [(0 : Int)] (List.range 64) ≠
      [DecodedField.block (List.range 64)] := by
  decide

/-- C6 as amended: for every present column that is not pass-by-value,
decode copies exactly 16 bytes verbatim from the column's offset,
regardless of the column's declared width. -/
theorem C6_byref_copies_16 (attrs : List Attr) (offs : List Int)
    (payload : List Nat) (i : Nat) (a : Attr) (off : Int)
    (ha : attrs[i]? = some a) (ho : offs[i]? = some off) (hpos : 0 ≤ off)
    (hbv : a.attbyval = false) :
    (decodeFields attrs offs payload)[i]? =
      some (DecodedField.block ((payload.drop off.toNat).take 16)) := by
  rw [decodeFields_idx attrs offs payload i a off ha ho,
    if_neg (by omega : ¬ off = -1), decodeField_byref a off.toNat payload hbv]

/-- Witness for the amended C6: the 64-byte-wide `name` column yields
the first 16 payload bytes. -/
theorem C6_byref_copies_16_witness :
    (decodeFields [nameAttr] [(0 : Int)] (List.range 64))[0]? =
      some (DecodedField.block (((List.range 64).drop (0 : Int).toNat).take 16)) :=
  C6_byref_copies_16 [nameAttr] [0] (List.range 64) 0 nameAttr 0 rfl rfl
    (by decide) rfl

/-- C7: the schema `(a int32, b dropped, c int32)` builds the layout
`offsets = [0, -1, 4]`, `total_size = 8`, and decoding any (well-formed)
8-byte payload yields the value of `a`, a null for `b`, and the value of
`c`, in that ordinal order. -/
theorem C7_dropped_column_scenario (assigned : Nat) (p : List Nat)
    (hlen : p.length = 8) (hby : ∀ b ∈ p, b < 256) :
    buildOffsets attrsABC 0 = ([0, -1, 4], 8, none) ∧
    (decode_against_layout assigned layoutABC p).1 =
      Except.ok [DecodedField.scalar (beToNat (p.take 4)),
        DecodedField.nullField,
        DecodedField.scalar (beToNat ((p.drop 4).take 4))] := by
  refine ⟨by decide, ?_⟩
  rw [decode_against_layout, if_pos (by rw [hlen]; rfl)]
  show Except.ok (decodeFields attrsABC [0, -1, 4] p) = _
  have e1 : decodeFields attrsABC [0, -1, 4] p =
      [decodeField (int4Attr "a" 1) 0 p, DecodedField.nullField,
        decodeField (int4Attr "c" 3) ((4 : Int).toNat) p] := by
    norm_num [attrsABC, decodeFields]
  have d1 := decodeField_byval4 (int4Attr "a" 1) 0 p rfl rfl (by omega) hby
  rw [if_neg (by decide : ¬ (int4Attr "a" 1).atttypid = FLOAT4OID)] at d1
  have d2 := decodeField_byval4 (int4Attr "c" 3) 4 p rfl rfl (by omega) hby
  rw [if_neg (by decide : ¬ (int4Attr "c" 3).atttypid = FLOAT4OID)] at d2
  rw [e1, d1]
  show _ = Except.ok [DecodedField.scalar (beToNat ((p.drop 0).take 4)),
    DecodedField.nullField, DecodedField.scalar (beToNat ((p.drop 4).take 4))]
  rw [show ((4 : Int).toNat) = 4 from rfl, d2]

/-- Witness for C7: the payload `00 00 00 05 | <dropped> | 00 00 00 07`
decodes to `a`, null, `c`. -/
theorem C7_dropped_column_scenario_witness :
    buildOffsets attrsABC 0 = ([0, -1, 4], 8, none) ∧
    (decode_against_layout 1 layoutABC [0, 0, 0, 5, 0, 0, 0, 7]).1 =
      Except.ok
        [DecodedField.scalar (beToNat (([0, 0, 0, 5, 0, 0, 0, 7] : List Nat).take 4)),
         DecodedField.nullField,
         DecodedField.scalar
           (beToNat ((([0, 0, 0, 5, 0, 0, 0, 7] : List Nat).drop 4).take 4))] :=
  C7_dropped_column_scenario 1 [0, 0, 0, 5, 0, 0, 0, 7] rfl (by decide)

/-- C8: after `invalidate_layout_cache`, the next `get_or_create_layout`
rebuilds from the catalog's current column set: whatever was cached, the
returned layout's offsets and total size are exactly those built from
the current attributes. -/
theorem C8_invalidate_then_rebuild (catalog : Nat → Option PgTupleDesc)
    (garbage : TableBinaryLayout) (cache : Cache) (relid : Nat)
    (td : PgTupleDesc) (offs : List Int) (tot : Nat)
    (hcat : catalog relid = some td)
    (hbuild : buildOffsets td.attrs 0 = (offs, tot, none)) :
    (get_or_create_layout catalog garbage
        (invalidate_layout_cache cache relid) relid).1 =
      Except.ok
        { relid := relid
          tupdesc := td
          offsets := offs
          total_binary_size := tot
          is_valid := true } := by
  have hnone : invalidate_layout_cache cache relid relid = none := by
    show (if relid = relid then none else cache relid) = none
    simp
  simp only [get_or_create_layout, hnone, rebuild_layout, hcat, hbuild]

/-- Witness for C8: table 9's cache holds a stale one-`int4` layout
(total 4); after invalidation, the rebuilt layout reflects the current
one-`int8` schema (offset `[0]`, total 8). -/
theorem C8_invalidate_then_rebuild_witness :
    (get_or_create_layout catalog9 g0
        (invalidate_layout_cache (cacheSet emptyCache 9 stale9) 9) 9).1 =
      Except.ok
        { relid := 9
          tupdesc := td9
          offsets := [0]
          total_binary_size := 8
          is_valid := true } :=
  C8_invalidate_then_rebuild catalog9 g0 (cacheSet emptyCache 9 stale9) 9
    td9 [0] 8 rfl (by decide)

/-- C9: every decode call leaves the borrowed layout unchanged — every
field of the cached entry (offsets, total size, validity flag, and the
stored tuple descriptor) is identical after the call to its value
before it. The decode loop only reads the layout; the one write the
function performs through the layout pointer, `BlessTupleDesc` at line
164, is guarded by `tdtypeid == RECORDOID && tdtypmod < 0`, and no
layout this cache can hold satisfies the guard: its stored descriptor
is a `CreateTupleDescCopy` of the relation's descriptor, whose
`tdtypeid` is the table's named rowtype OID (`pg_class.reltype`), never
`RECORDOID` — hence the hypothesis. -/
theorem C9_decode_preserves_layout (assigned : Nat)
    (layout : TableBinaryLayout) (payload : List Nat)
    (h : layout.tupdesc.tdtypeid ≠ RECORDOID) :
    (decode_against_layout assigned layout payload).2 = layout := by
  rw [decode_against_layout]
  by_cases hc : payload.length = layout.total_binary_size
  · rw [if_pos hc]
    have hb : blessTupleDesc assigned layout.tupdesc = layout.tupdesc := by
      rw [blessTupleDesc, if_neg (fun hcon => h hcon.1)]
    show { layout with tupdesc := blessTupleDesc assigned layout.tupdesc } =
      layout
    rw [hb]
  · rw [if_neg hc]

/-- Witness for C9: a successful decode of a 4-byte payload against the
cached one-`int4` layout (descriptor `tdtypeid` = the table's rowtype
OID 10009) hands back the layout bit-for-bit unchanged. -/
theorem C9_decode_preserves_layout_witness :
    (decode_against_layout 7 stale9 [0, 0, 0, 1]).2 = stale9 :=
  C9_decode_preserves_layout 7 stale9 [0, 0, 0, 1] (by decide)

/-- C10: a present pass-by-value column of declared width 1 is decoded
with no byte-order conversion — the decoded value (bit pattern, for a
hypothetical one-byte `float4`) is the single payload byte at the
column's offset, zero-extended. -/
theorem C10_width1_no_swap (attrs : List Attr) (offs : List Int)
    (payload : List Nat) (i : Nat) (a : Attr) (off : Int) (byte : Nat)
    (ha : attrs[i]? = some a) (ho : offs[i]? = some off) (hpos : 0 ≤ off)
    (hbv : a.attbyval = true) (hl : a.attlen = 1)
    (hbyte : payload[off.toNat]? = some byte) (hblt : byte < 256) :
    (decodeFields attrs offs payload)[i]? =
      some (if a.atttypid = FLOAT4OID then DecodedField.float4 byte
            else DecodedField.scalar byte) := by
  rw [decodeFields_idx attrs offs payload i a off ha ho,
    if_neg (by omega : ¬ off = -1),
    decodeField_byval1 a off.toNat payload byte hbv hl hbyte hblt]

/-- Witness for C10: a one-byte `bool` column over the payload byte 200
decodes to the integer Datum 200. -/
theorem C10_width1_no_swap_witness :
    (decodeFields [boolAttr] [(0 : Int)] [200])[0]? =
      some (DecodedField.scalar 200) := by
  have h := C10_width1_no_swap [boolAttr] [0] [200] 0 boolAttr 0 200 rfl rfl
    (by decide) rfl rfl rfl (by decide)
  simpa [boolAttr, FLOAT4OID] using h

end PgBinmapper
